import Mathlib

/-!
Shallow embedding of the sales-upload ingestion pipeline
(`src/app/api/upload/route.ts` and the alternate upload handler in
`src/unnamed/part_000`) of the `gbs_sales` repository.

Modelling conventions:
* A raw spreadsheet cell (`null | number | string | Date`) is `CellValue`;
  JavaScript numbers are modelled as `Rat` (exact decimal semantics).
* A JavaScript `Date` is modelled by its millisecond timestamp (`Int`),
  with the server clock in UTC (so `new Date(1899, 11, 30)` is UTC midnight
  of 1899-12-30).  An *Invalid Date* is `none : Option Int`.
* The host's `new Date(string)` parser is an explicit parameter
  `parseStr : String → Option Int` (`none` models `NaN` timestamps).
* Database calls and other awaited I/O are oracles (`DbOutcome`); the
  orchestrator is a pure function from request + oracles to a response,
  a chronological trace of issued database operations, the final value of
  the `totalInserted` counter and the final value of the `batchId` variable.
-/

/-- A raw spreadsheet cell value as seen by the route handlers. -/
inductive CellValue where
  | null : CellValue
  | num (q : Rat) : CellValue
  | str (s : String) : CellValue
  | date (ts : Int) : CellValue
deriving DecidableEq

/-- JavaScript truthiness of a cell value (`0`, `""`, `null` are falsy;
a `Date` object is always truthy). -/
def truthy : CellValue → Bool
  | .null => false
  | .num q => decide (q ≠ 0)
  | .str s => decide (s ≠ "")
  | .date _ => true

/-- Days since 1970-01-01 of a proleptic Gregorian calendar date
(Howard Hinnant's `days_from_civil`); `m` is 1-based. -/
def daysFromCivil (y : Int) (m d : Nat) : Int :=
  let y2 : Int := if m ≤ 2 then y - 1 else y
  let era : Int := Int.fdiv y2 400
  let yoe : Nat := (y2 - era * 400).toNat
  let mp : Nat := if 2 < m then m - 3 else m + 9
  let doy : Nat := (153 * mp + 2) / 5 + d - 1
  let doe : Nat := yoe * 365 + yoe / 4 - yoe / 100 + doy
  era * 146097 + (doe : Int) - 719468

/-- Calendar date (year, 1-based month, day) of a count of days since
1970-01-01 (Howard Hinnant's `civil_from_days`). -/
def civilFromDays (z : Int) : Int × Nat × Nat :=
  let z2 : Int := z + 719468
  let era : Int := Int.fdiv z2 146097
  let doe : Nat := (z2 - era * 146097).toNat
  let yoe : Nat := (doe - doe / 1460 + doe / 36524 - doe / 146096) / 365
  let y : Int := (yoe : Int) + era * 400
  let doy : Nat := doe - (365 * yoe + yoe / 4 - yoe / 100)
  let mp : Nat := (5 * doy + 2) / 153
  let d : Nat := doy - (153 * mp + 2) / 5 + 1
  let m : Nat := if mp < 10 then mp + 3 else mp - 9
  (if m ≤ 2 then y + 1 else y, m, d)

/-- The calendar date `n` days after the given calendar date. -/
def addDays (y : Int) (m d : Nat) (n : Int) : Int × Nat × Nat :=
  civilFromDays (daysFromCivil y m d + n)

/-- Truncation toward zero of a rational (JavaScript `ToIntegerOrInfinity`
on a finite number). -/
def ratTrunc (q : Rat) : Int := Int.tdiv q.num (q.den : Int)

/-- ECMAScript `TimeClip`: a time value farther than 8.64e15 ms from the
epoch denotes an Invalid Date (`none`); otherwise truncate toward zero. -/
def timeClip (q : Rat) : Option Int :=
  if q.num.natAbs ≤ 8640000000000000 * q.den then some (ratTrunc q) else none

/-- `new Date(ms)` for a millisecond argument: the stored (clipped) time
value, or `none` for an Invalid Date. -/
def jsNewDateMs (q : Rat) : Option Int := timeClip q

/-- Timestamp of `new Date(1899, 11, 30)` — the Excel serial-date reference
epoch 1899-12-30 (server clock in UTC). -/
def excelEpochMs : Int := 86400000 * daysFromCivil 1899 12 30

/-- The spreadsheet serial-date conversion shared by both pipelines:
`new Date(excelEpoch.getTime() + value * 86400000)`
(route.ts lines 136–139, part_000 `parseDate` lines 11–18). -/
def parseDateSerial (d : Rat) : Option Int :=
  jsNewDateMs ((excelEpochMs : Rat) + d * 86400000)

/-- Day number (days since 1970-01-01) holding a timestamp: JavaScript
`Day(t) = floor(t / msPerDay)`. -/
def jsDayOf (ts : Int) : Int := Int.fdiv ts 86400000

/-- Calendar date of a timestamp (UTC). -/
def civilOfMs (ts : Int) : Int × Nat × Nat := civilFromDays (jsDayOf ts)

/-- `Date.prototype.getFullYear` under a UTC clock. -/
def jsYearOf (ts : Int) : Int := (civilOfMs ts).1

/-- `Date.prototype.getMonth` (zero-based month) under a UTC clock. -/
def jsMonth0 (ts : Int) : Nat := (civilOfMs ts).2.1 - 1

/-- Left-pad the decimal representation of `n` with zeros to `w` digits. -/
def padZero (w n : Nat) : String :=
  let s := toString n
  String.mk (List.replicate (w - s.length) '0') ++ s

/-- The date part of `Date.prototype.toISOString`
(`toISOString().split('T')[0]`). -/
def isoOfMs (ts : Int) : String :=
  let c := civilOfMs ts
  let ys :=
    if 0 ≤ c.1 ∧ c.1 ≤ 9999 then padZero 4 c.1.toNat
    else (if c.1 < 0 then "-" else "+") ++ padZero 6 c.1.natAbs
  ys ++ "-" ++ padZero 2 c.2.1 ++ "-" ++ padZero 2 c.2.2

/-- Keep only the characters `[0-9.-]`: the `value.replace(/[^0-9.-]/g, '')`
(route.ts) / `replace(/[^\d.-]/g, '')` (part_000) stripping step. -/
def stripNonNumeric (s : String) : String :=
  String.mk (s.data.filter fun c => c.isDigit || c = '.' || c = '-')

/-- Decimal value of a list of digit characters. -/
def digitsToNat (cs : List Char) : Nat :=
  cs.foldl (fun a c => 10 * a + (c.toNat - 48)) 0

/-- JavaScript `parseFloat` restricted to inputs over the alphabet
`[0-9.-]` (all call sites below first strip other characters): an optional
sign, then the longest prefix of digits with at most one decimal point;
`none` models `NaN` (no digit in the mantissa). -/
def jsParseFloat (s : String) : Option Rat :=
  let cs := s.data
  let sgn : Int := match cs with
    | '-' :: _ => -1
    | _ => 1
  let cs1 : List Char := match cs with
    | '-' :: r => r
    | '+' :: r => r
    | _ => cs
  let ip := cs1.takeWhile Char.isDigit
  let rest := cs1.drop ip.length
  let fp : List Char := match rest with
    | '.' :: r => r.takeWhile Char.isDigit
    | _ => []
  if ip.isEmpty && fp.isEmpty then none
  else some ((sgn : Rat) * ((digitsToNat ip : Rat) + (digitsToNat fp : Rat) / (10 : Rat) ^ fp.length))

namespace UploadRoute

/-- `parseNumber` of route.ts (lines 211–215): `null`/`undefined`/`''`
give `null`; strings are stripped to `[0-9.-]` then parsed with
`parseFloat`; numbers pass through; a failed parse (`NaN`) gives `null`.
A `Date` argument stringifies to a non-numeric word, hence `NaN → null`. -/
def parseNumber : CellValue → Option Rat
  | .null => none
  | .num q => some q
  | .str s => if s = "" then none else jsParseFloat (stripNonNumeric s)
  | .date _ => none

/-- The invoice-date coercion of route.ts (lines 131–148): the truthiness
guard `if (row['Invoice date'])`, then per-type parsing (serial number /
string / Date passthrough), then the `!isNaN(parsedDate.getTime())`
validity check (`none` = invalid). -/
def parseInvoiceDate (parseStr : String → Option Int) : CellValue → Option Int
  | .null => none
  | .num d => if truthy (.num d) then parseDateSerial d else none
  | .str s => if truthy (.str s) then parseStr s else none
  | .date ts => some ts

/-- The derived invoice-date fields of route.ts (lines 127–152):
`(invoice_date, year, quarter)` — ISO date string, `getFullYear()`, and
`"Q" + (Math.floor(getMonth() / 3) + 1)`; all three stay `null` when the
cell is falsy or the parsed date is invalid. -/
def transformInvoice (parseStr : String → Option Int) (v : CellValue) :
    Option String × Option Int × Option String :=
  match parseInvoiceDate parseStr v with
  | some ts => (some (isoOfMs ts), some (jsYearOf ts), some ("Q" ++ toString (jsMonth0 ts / 3 + 1)))
  | none => (none, none, none)

end UploadRoute

namespace AltRoute

/-- `parseNumber` of part_000 (lines 20–24): numbers pass through, strings
are stripped then parsed, and `parseFloat(cleaned) || 0` turns a failed
parse (and a zero parse) into `0` — never `null`. -/
def parseNumber : String ⊕ Rat → Rat
  | .inr q => q
  | .inl s => (jsParseFloat (stripNonNumeric s)).getD 0

/-- `parseDateValue` of part_000 (lines 159–168): falsy values give
`null`; `Date` passes through; numbers use the serial conversion (an
out-of-range serial is modelled as an invalid date, `none`); strings go
through the host date parser with an `isNaN` check. -/
def parseDateValue (parseStr : String → Option Int) : CellValue → Option Int
  | .null => none
  | .num d => if truthy (.num d) then parseDateSerial d else none
  | .str s => if truthy (.str s) then parseStr s else none
  | .date ts => some ts

end AltRoute

/-! ### The batch ingestion orchestrator (route.ts `POST`)

The transform of one raw record is deterministic, but a dynamically typed
row can make the per-row `try` block throw; the orchestrator is therefore
modelled over a list of per-row outcomes `Except String α` (`α` is the
canonical-row payload, which the orchestrator never inspects).  -/

/-- The suppression marker appended once the per-row error cap is hit
(route.ts line 319). -/
def suppressionMarker : String := "... (showing first 10 errors)"

/-- Worker for the transform loop of route.ts (lines 121–323): `n` is the
spreadsheet row number (`i + 2`), `data`/`errs` are the accumulators in
reverse order.  On a row error the message is recorded and, once 10 errors
have accumulated, the suppression marker is appended and the loop `break`s. -/
def transformLoopGo {α : Type} : List (Except String α) → Nat → List α → List String →
    List α × List String
  | [], _, data, errs => (data.reverse, errs.reverse)
  | o :: rest, n, data, errs =>
    match o with
    | .ok r => transformLoopGo rest (n + 1) (r :: data) errs
    | .error m =>
      let errs2 := (s!"Row {n}: {m}") :: errs
      if 10 ≤ errs2.length then (data.reverse, (suppressionMarker :: errs2).reverse)
      else transformLoopGo rest (n + 1) data errs2

/-- The transforming phase of route.ts: returns the transformed rows and
the collected per-row error messages. -/
def transformLoop {α : Type} (outcomes : List (Except String α)) : List α × List String :=
  transformLoopGo outcomes 2 [] []

/-- Rows that transform without throwing. -/
def okRows {α : Type} : List (Except String α) → List α
  | [] => []
  | .ok r :: rest => r :: okRows rest
  | .error _ :: rest => okRows rest

/-- Number of rows whose transform throws. -/
def errCount {α : Type} : List (Except String α) → Nat
  | [] => 0
  | .ok _ :: rest => errCount rest
  | .error _ :: rest => errCount rest + 1

/-- The formatted error messages of a list of row outcomes, starting at
spreadsheet row number `n`. -/
def fmtErrs {α : Type} (n : Nat) : List (Except String α) → List String
  | [] => []
  | .ok _ :: rest => fmtErrs (n + 1) rest
  | .error m :: rest => (s!"Row {n}: {m}") :: fmtErrs (n + 1) rest

/-- The uploaded file as read from the multipart form. -/
structure ReqFile where
  name : String
  size : Nat
  type : String
deriving DecidableEq

/-- An ingestion request: `none` models an absent form field. -/
structure Request where
  file : Option ReqFile
  entity : Option String
deriving DecidableEq

/-- The entity enumeration of route.ts line 43. -/
def validEntities : List String := ["HQ", "USA", "BWA", "Vietnam", "Healthcare", "Korot"]

/-- The accepted spreadsheet MIME types of route.ts lines 61–64. -/
def validTypes : List String :=
  ["application/vnd.openxmlformats-officedocument.spreadsheetml.sheet",
   "application/vnd.ms-excel"]

/-- The JSON body and status of the HTTP response. -/
structure Response where
  status : Nat
  success : Bool
  error : Option String := none
  details : List String := []
  hintMsg : Option String := none
  batchId : Option String := none
  rowsInserted : Option Nat := none
  rowsSkipped : Option Nat := none
  entity : Option String := none
  fileName : Option String := none
deriving DecidableEq

/-- A 400 validation-error response with no extra fields. -/
def err400 (m : String) : Response := { status := 400, success := false, error := some m }

/-- One issued database operation, recorded in chronological order. -/
inductive DbOp where
  | historyInsert (batchId entity fileName : String) (rowsUploaded : Nat) (status : String)
  | chunkInsert (chunkIdx size totalBefore : Nat)
  | historyUpdate (batchId status : String) (errMsg : Option String)
deriving DecidableEq

/-- Outcome of one awaited database call: it returns normally, returns a
supabase error object, or rejects (throws into the outer catch). -/
inductive DbOutcome where
  | ok
  | dbError (msg : String) (hintMsg : Option String)
  | thrown (msg : String)
deriving DecidableEq

/-- Does the outcome model a rejected promise? -/
def DbOutcome.isThrow : DbOutcome → Bool
  | .thrown _ => true
  | _ => false

/-- Does the outcome model a returned supabase error object? -/
def DbOutcome.isErr : DbOutcome → Bool
  | .dbError _ _ => true
  | _ => false

/-- The environment of one ingestion invocation: the batch identifier the
uuid generator will produce, the outcome of each awaited external call, and
the parsed sheet (as per-row transform outcomes).  `preThrow`/`bufThrow`
model rejections of `request.formData()` / `file.arrayBuffer()`;
`parseResult.error` models an `XLSX.read` exception (caught locally,
response 400). -/
structure Oracle (α : Type) where
  preThrow : Option String := none
  bufThrow : Option String := none
  parseResult : Except String (List (Except String α))
  batchId : String
  historyInsert : DbOutcome
  chunkInsert : Nat → DbOutcome
  failUpdate : DbOutcome := .ok
  completeUpdate : DbOutcome := .ok

/-- Result of one ingestion invocation: the HTTP response, the trace of
issued database operations, the final `totalInserted` counter, and the
final value of the handler's `batchId` variable (initially `""`). -/
structure ExecResult where
  resp : Response
  trace : List DbOp
  totalInserted : Nat
  batchIdVar : String
deriving DecidableEq

/-- The catch-all handler of route.ts (lines 426–453): if a batch
identifier was allocated, best-effort-update the history record to
`failed` (the update is issued; its own failure is swallowed), then
answer 500. -/
def catchResult (bid msg : String) (ops : List DbOp) (total : Nat) : ExecResult :=
  { resp := { status := 500, success := false, error := some "Internal server error",
              details := [msg] },
    trace := if bid = "" then ops else ops ++ [.historyUpdate bid "failed" (some msg)],
    totalInserted := total,
    batchIdVar := bid }

/-- Result of the chunked-insert loop. -/
inductive ChunkResult where
  | success (total : Nat) (ops : List DbOp)
  | failed (msg : String) (hintMsg : Option String) (total : Nat) (ops : List DbOp)
  | exc (msg : String) (total : Nat) (ops : List DbOp)

/-- The chunked-insert loop of route.ts (lines 372–406): slices of 500
rows, strictly sequential, `totalInserted` incremented only after a chunk
returns without error; a chunk error stops the loop. -/
def insertChunksGo {α : Type} (ci : Nat → DbOutcome) (idx : Nat) (pending : List α)
    (total : Nat) (ops : List DbOp) : ChunkResult :=
  match pending with
  | [] => .success total ops
  | x :: rest =>
    let chunk := (x :: rest).take 500
    let ops2 := ops ++ [.chunkInsert idx chunk.length total]
    match ci idx with
    | .ok => insertChunksGo ci (idx + 1) ((x :: rest).drop 500) (total + chunk.length) ops2
    | .dbError m hm => .failed m hm total ops2
    | .thrown m => .exc m total ops2
termination_by pending.length
decreasing_by
  simp only [List.length_drop, List.length_cons]
  omega

/-- The chronological chunk-insert operations for `len` remaining rows in
at most `k` chunks, starting at chunk index `idx` with counter `total`
(closed form of the trace the loop appends). -/
def chunkOpsK : Nat → Nat → Nat → Nat → List DbOp
  | 0, _, _, _ => []
  | k + 1, idx, total, len =>
    if len = 0 then []
    else .chunkInsert idx (min 500 len) total ::
      chunkOpsK k (idx + 1) (total + min 500 len) (len - 500)

/-- The operations recorded in a `ChunkResult`. -/
def chunkResultOps : ChunkResult → List DbOp
  | .success _ ops => ops
  | .failed _ _ _ ops => ops
  | .exc _ _ ops => ops

/-- The persisting phase of route.ts (lines 339–424): allocate the batch
identifier, insert the `processing` history record, run the chunked
inserts, finalize the history record. -/
def persistPhase {α : Type} (f : ReqFile) (ent : String) (tl : List α × List String)
    (o : Oracle α) : ExecResult :=
  let bid := o.batchId
  let ops0 : List DbOp := [.historyInsert bid ent f.name tl.1.length "processing"]
  match o.historyInsert with
  | .thrown m => catchResult bid m ops0 0
  | .dbError m _ =>
    { resp := { status := 500, success := false, error := some "Database error", details := [m] },
      trace := ops0, totalInserted := 0, batchIdVar := bid }
  | .ok =>
    match insertChunksGo o.chunkInsert 0 tl.1 0 ops0 with
    | .exc m total ops => catchResult bid m ops total
    | .failed m hm total ops =>
      let ops2 := ops ++ [.historyUpdate bid "failed" (some m)]
      match o.failUpdate with
      | .thrown m2 => catchResult bid m2 ops2 total
      | _ =>
        { resp := { status := 500, success := false, error := some "Database insert failed",
                    details := [m], hintMsg := hm },
          trace := ops2, totalInserted := total, batchIdVar := bid }
    | .success total ops =>
      let ops2 := ops ++ [.historyUpdate bid "completed" none]
      match o.completeUpdate with
      | .thrown m2 => catchResult bid m2 ops2 total
      | _ =>
        { resp := { status := 200, success := true, batchId := some bid,
                    rowsInserted := some total, rowsSkipped := some tl.2.length,
                    entity := some ent, fileName := some f.name },
          trace := ops2, totalInserted := total, batchIdVar := bid }

/-- The parse/transform part of route.ts (lines 72–344), entered once the
request validation has passed. -/
def mainFlow {α : Type} (f : ReqFile) (ent : String) (o : Oracle α) : ExecResult :=
  match o.bufThrow with
  | some m => catchResult "" m [] 0
  | none =>
    match o.parseResult with
    | .error m =>
      { resp := { status := 400, success := false, error := some "Failed to parse Excel file",
                  details := [m] },
        trace := [], totalInserted := 0, batchIdVar := "" }
    | .ok rows =>
      if rows.length = 0 then
        { resp := err400 "Excel file is empty", trace := [], totalInserted := 0, batchIdVar := "" }
      else
        let tl := transformLoop rows
        if 0 < tl.2.length ∧ tl.1.length = 0 then
          { resp := { status := 400, success := false, error := some "Data validation failed",
                      details := tl.2 },
            trace := [], totalInserted := 0, batchIdVar := "" }
        else persistPhase f ent tl o

/-- An early 400 return: no side effects, no batch identifier. -/
def earlyResult (r : Response) : ExecResult :=
  { resp := r, trace := [], totalInserted := 0, batchIdVar := "" }

/-- The `POST` handler of route.ts (lines 11–454): the validation checks
in source order, then parsing, transforming and persisting. -/
def post {α : Type} (req : Request) (o : Oracle α) : ExecResult :=
  match o.preThrow with
  | some m => catchResult "" m [] 0
  | none =>
    match req.file with
    | none => earlyResult (err400 "No file provided")
    | some f =>
      match req.entity with
      | none => earlyResult (err400 "No entity selected")
      | some ent =>
        if ent = "" then earlyResult (err400 "No entity selected")
        else if ent ∉ validEntities then earlyResult (err400 ("Invalid entity: " ++ ent))
        else if 52428800 < f.size then
          earlyResult (err400 "File too large. Maximum size is 50MB.")
        else if f.type ∉ validTypes then
          earlyResult (err400 "Invalid file type. Only .xlsx and .xls files are allowed.")
        else mainFlow f ent o

/-- The request's entity field is absent, empty, or outside the fixed
enumeration. -/
def entityInvalid (req : Request) : Prop :=
  match req.entity with
  | none => True
  | some e => e = "" ∨ e ∉ validEntities

/-- All pre-allocation validation of one ingestion passed: well-formed
request, parsable non-empty sheet, and at least one transformed row. -/
def IngestionValidated {α : Type} (req : Request) (o : Oracle α) : Prop :=
  o.preThrow = none ∧ o.bufThrow = none ∧
  (∃ f, req.file = some f ∧ f.size ≤ 52428800 ∧ f.type ∈ validTypes) ∧
  (∃ e, req.entity = some e ∧ e ≠ "" ∧ e ∈ validEntities) ∧
  ∃ rows, o.parseResult = .ok rows ∧ rows ≠ [] ∧
    ¬(0 < (transformLoop rows).2.length ∧ (transformLoop rows).1.length = 0)

/-! ### Concrete scenarios used as witnesses -/

/-- A well-formed uploaded file. -/
def fileA : ReqFile :=
  ⟨"data.xlsx", 1024, "application/vnd.openxmlformats-officedocument.spreadsheetml.sheet"⟩

/-- A well-formed request for entity `USA`. -/
def reqA : Request := ⟨some fileA, some "USA"⟩

/-- A request naming an entity outside the enumeration. -/
def reqBadEntity : Request := ⟨some fileA, some "France"⟩

/-- A benign environment: one transformable row, everything succeeds. -/
def oracleOkOne : Oracle Unit :=
  { parseResult := .ok [.ok ()], batchId := "batch-1", historyInsert := .ok,
    chunkInsert := fun _ => .ok }

/-- An environment whose history insert returns a database error. -/
def oracleHistErr : Oracle Unit :=
  { parseResult := .ok [.ok ()], batchId := "batch-2", historyInsert := .dbError "no table" none,
    chunkInsert := fun _ => .ok }

/-- An environment whose history insert rejects (throws). -/
def oracleHistThrow : Oracle Unit :=
  { parseResult := .ok [.ok ()], batchId := "batch-3", historyInsert := .thrown "boom",
    chunkInsert := fun _ => .ok }

/-- A 600-row sheet whose second insert chunk returns a database error. -/
def oracle600 : Oracle Unit :=
  { parseResult := .ok (List.replicate 600 (.ok ())), batchId := "batch-600",
    historyInsert := .ok,
    chunkInsert := fun j => if j = 0 then .ok else .dbError "insert exploded" none }

/-- A 1200-row sheet in a fully successful environment. -/
def oracle1200 : Oracle Unit :=
  { parseResult := .ok (List.replicate 1200 (.ok ())), batchId := "batch-1200",
    historyInsert := .ok, chunkInsert := fun _ => .ok }

theorem parseDateSerial_int (d : Int) :
    parseDateSerial (d : Rat) =
      if (excelEpochMs + d * 86400000).natAbs ≤ 8640000000000000 then
        some (excelEpochMs + d * 86400000)
      else none := by
  have hcast : (excelEpochMs : Rat) + (d : Rat) * 86400000
      = ((excelEpochMs + d * 86400000 : Int) : Rat) := by
    push_cast
    ring
  unfold parseDateSerial jsNewDateMs timeClip ratTrunc
  rw [hcast, Rat.num_intCast, Rat.den_intCast]
  simp [Int.tdiv_one]

theorem excelEpochMs_eq : excelEpochMs = -2209161600000 := by decide

/-- Claim C1: for every valid numeric spreadsheet serial `d`, the date
coercion returns the timestamp of the reference epoch 1899-12-30 plus
`d * 86400000` milliseconds, whose calendar date is the epoch date plus
`d` days (the witness instantiates `d = 44927`, giving 2023-01-01). -/
theorem c1_serial_date_coercion (d : Int) (h0 : 0 ≤ d) (h1 : d ≤ 2958465) :
    parseDateSerial (d : Rat) = some (excelEpochMs + d * 86400000) ∧
    civilOfMs (excelEpochMs + d * 86400000) = addDays 1899 12 30 d := by
  constructor
  · rw [parseDateSerial_int]
    rw [if_pos]
    rw [excelEpochMs_eq]
    omega
  · unfold civilOfMs jsDayOf addDays excelEpochMs
    have h2 : 86400000 * daysFromCivil 1899 12 30 + d * 86400000
        = 86400000 * (daysFromCivil 1899 12 30 + d) := by ring
    rw [h2, Int.mul_fdiv_cancel_left _ (by norm_num)]

/-- Witness for C1 at serial 44927. -/
theorem c1_serial_date_coercion_witness :
    parseDateSerial ((44927 : Int) : Rat) = some 1672531200000 ∧
    civilOfMs 1672531200000 = (2023, 1, 1) ∧
    isoOfMs 1672531200000 = "2023-01-01" := by
  have h := c1_serial_date_coercion 44927 (by decide) (by decide)
  refine ⟨?_, by decide, by decide⟩
  rw [h.1, excelEpochMs_eq]
  norm_num

/-- Claim C4: the numeric coercion of route.ts returns `null` on failure —
on `null` input, on the empty string, and on every text input whose
stripped form does not parse as a decimal number; it never falls back
to `0`. -/
theorem c4_number_coercion_null_on_failure :
    UploadRoute.parseNumber CellValue.null = none ∧
    UploadRoute.parseNumber (CellValue.str "") = none ∧
    ∀ s : String, jsParseFloat (stripNonNumeric s) = none →
      UploadRoute.parseNumber (CellValue.str s) = none := by
  refine ⟨rfl, by simp [UploadRoute.parseNumber], fun s h => ?_⟩
  by_cases hs : s = ""
  · subst hs
    simp [UploadRoute.parseNumber]
  · simp [UploadRoute.parseNumber, hs, h]

/-- Witness for C4. -/
theorem c4_number_coercion_null_on_failure_witness :
    UploadRoute.parseNumber (CellValue.str "-") = none :=
  c4_number_coercion_null_on_failure.2.2 "-" (by decide)

/-- Claim C5: in every transformed row the derived `year` and `quarter`
are either both null or both derived from the same parsed invoice date,
with `quarter = "Q" ++ (floor(zeroBasedMonth / 3) + 1)`; an absent or
unparseable invoice date leaves the date, year and quarter all null —
never exactly one of them. -/
theorem c5_year_quarter_consistency (ps : String → Option Int) (v : CellValue) :
    (((UploadRoute.transformInvoice ps v).2.1 = none ∧
      (UploadRoute.transformInvoice ps v).2.2 = none) ∨
     ∃ ts, UploadRoute.parseInvoiceDate ps v = some ts ∧
       (UploadRoute.transformInvoice ps v).2.1 = some (jsYearOf ts) ∧
       (UploadRoute.transformInvoice ps v).2.2 = some ("Q" ++ toString (jsMonth0 ts / 3 + 1))) ∧
    (UploadRoute.parseInvoiceDate ps v = none →
      UploadRoute.transformInvoice ps v = (none, none, none)) := by
  cases h : UploadRoute.parseInvoiceDate ps v with
  | none =>
    refine ⟨.inl ?_, fun _ => ?_⟩ <;> simp [UploadRoute.transformInvoice, h]
  | some ts =>
    refine ⟨.inr ⟨ts, rfl, ?_, ?_⟩, fun hn => by simp at hn⟩
    · simp [UploadRoute.transformInvoice, h]
    · simp [UploadRoute.transformInvoice, h]

/-- Witness for C5. -/
theorem c5_year_quarter_consistency_witness :
    UploadRoute.transformInvoice (fun _ => none) CellValue.null = (none, none, none) :=
  (c5_year_quarter_consistency (fun _ => none) CellValue.null).2 rfl

/-- Claim C10: a falsy raw invoice-date cell — serial `0` (the epoch
itself), the empty string, or `null` — yields a null date at the
transformer's interface, so invoice date, year and quarter are all null;
serial `0` is never coerced to the epoch date.  The same holds for
`parseDateValue` of the alternate pipeline. -/
theorem c10_falsy_date_yields_null (ps : String → Option Int) :
    UploadRoute.parseInvoiceDate ps (CellValue.num 0) = none ∧
    UploadRoute.transformInvoice ps (CellValue.num 0) = (none, none, none) ∧
    UploadRoute.transformInvoice ps (CellValue.str "") = (none, none, none) ∧
    UploadRoute.transformInvoice ps CellValue.null = (none, none, none) ∧
    AltRoute.parseDateValue ps (CellValue.num 0) = none ∧
    AltRoute.parseDateValue ps (CellValue.str "") = none ∧
    AltRoute.parseDateValue ps CellValue.null = none := by
  refine ⟨?_, ?_, ?_, ?_, ?_, ?_, ?_⟩ <;>
    simp [UploadRoute.parseInvoiceDate, UploadRoute.transformInvoice,
      AltRoute.parseDateValue, truthy]

theorem transformLoopGo_under_cap {α : Type} (outcomes : List (Except String α)) :
    ∀ (n : Nat) (data : List α) (errs : List String),
      errs.length + errCount outcomes < 10 →
      transformLoopGo outcomes n data errs
        = (data.reverse ++ okRows outcomes, errs.reverse ++ fmtErrs n outcomes) := by
  induction outcomes with
  | nil =>
    intro n data errs h
    simp [transformLoopGo, okRows, fmtErrs]
  | cons o rest ih =>
    intro n data errs h
    cases o with
    | ok r =>
      simp only [transformLoopGo]
      rw [ih (n + 1) (r :: data) errs (by simpa [errCount] using h)]
      simp [okRows, fmtErrs]
    | error m =>
      simp only [transformLoopGo]
      have hcnt : errCount (Except.error m :: rest) = errCount rest + 1 := by simp [errCount]
      rw [hcnt] at h
      have hlen : ¬ 10 ≤ ((s!"Row {n}: {m}") :: errs).length := by
        simp only [List.length_cons]
        omega
      rw [if_neg hlen]
      rw [ih (n + 1) data _ (by simp only [List.length_cons]; omega)]
      simp [okRows, fmtErrs]

theorem transformLoopGo_err_bound {α : Type} (outcomes : List (Except String α)) :
    ∀ (n : Nat) (data : List α) (errs : List String),
      errs.length ≤ 9 →
      ((transformLoopGo outcomes n data errs).2).length ≤ 11 := by
  induction outcomes with
  | nil =>
    intro n data errs h
    simpa [transformLoopGo] using by omega
  | cons o rest ih =>
    intro n data errs h
    cases o with
    | ok r =>
      simpa only [transformLoopGo] using ih (n + 1) (r :: data) errs h
    | error m =>
      simp only [transformLoopGo]
      by_cases hc : 10 ≤ ((s!"Row {n}: {m}") :: errs).length
      · rw [if_pos hc]
        simp only [List.length_cons] at *
        simp
        omega
      · rw [if_neg hc]
        exact ih (n + 1) data _ (by simp only [List.length_cons] at hc ⊢; omega)

/-- Counterexample to claim C6 as stated: with ten failing rows followed
by one transformable row, the loop of route.ts hits the error cap,
appends the suppression marker and `break`s, so the final transformable
record is *not* transformed (the transformed set is empty), contradicting
"reaching the warning cap never causes subsequent rows to be skipped". -/
theorem c6_counterexample_break_skips_rows :
    (transformLoop (List.replicate 10 (Except.error "boom") ++ [Except.ok ()])).1
        = ([] : List Unit) ∧
    Except.ok () ∈ List.replicate 10 (Except.error "boom") ++ [Except.ok ()] := by
  constructor
  · decide
  · simp

/-- Claim C6 (amended): per-row warnings are collected up to a cap of 10,
after which a single suppression marker is appended and the transform
loop stops — raw records after the tenth error are skipped, not
transformed; when fewer than 10 rows error, every raw record is
transformed and all warnings are kept (never more than 11 entries). -/
theorem c6_warning_cap_amended :
    (∀ (α : Type) (outcomes : List (Except String α)), errCount outcomes < 10 →
        transformLoop outcomes = (okRows outcomes, fmtErrs 2 outcomes)) ∧
    (∀ (α : Type) (outcomes : List (Except String α)),
        (transformLoop outcomes).2.length ≤ 11) ∧
    transformLoop (List.replicate 10 (Except.error "boom") ++ [Except.ok ()]) =
      (([] : List Unit),
       ["Row 2: boom", "Row 3: boom", "Row 4: boom", "Row 5: boom", "Row 6: boom",
        "Row 7: boom", "Row 8: boom", "Row 9: boom", "Row 10: boom", "Row 11: boom",
        suppressionMarker]) := by
  refine ⟨fun α outcomes h => ?_, fun α outcomes => ?_, by decide⟩
  · unfold transformLoop
    rw [transformLoopGo_under_cap outcomes 2 [] [] (by simpa using h)]
    simp
  · exact transformLoopGo_err_bound outcomes 2 [] [] (by simp)

/-- Witness for C6 (amended) -/
theorem c6_warning_cap_amended_witness :
    transformLoop [Except.ok (37 : Nat)] = ([37], []) := by
  have h := c6_warning_cap_amended.1 Nat [Except.ok 37] (by decide)
  simpa [okRows, fmtErrs] using h

theorem insertChunksGo_fail {α : Type} (ci : Nat → DbOutcome) (msg : String) (hm : Option String) :
    ∀ (k idx total : Nat) (pending : List α) (ops : List DbOp),
      (∀ j, j < k → ci (idx + j) = .ok) →
      ci (idx + k) = .dbError msg hm →
      500 * k < pending.length →
      insertChunksGo ci idx pending total ops =
        .failed msg hm (total + 500 * k)
          (ops ++ (List.range (k + 1)).map fun j =>
            DbOp.chunkInsert (idx + j) (min 500 (pending.length - 500 * j)) (total + 500 * j)) := by
  intro k
  induction k with
  | zero =>
    intro idx total pending ops hok hf hlen
    match pending with
    | [] => simp at hlen
    | x :: rest =>
      rw [insertChunksGo]
      simp only [Nat.add_zero] at hf
      simp only [hf]
      simp [List.range_succ, List.length_take]
      omega
  | succ k ih =>
    intro idx total pending ops hok hf hlen
    match pending with
    | [] => simp at hlen
    | x :: rest =>
      simp only [List.length_cons] at hlen
      have h0 : ci idx = .ok := by simpa using hok 0 (Nat.succ_pos k)
      have hchunk : ((x :: rest).take 500).length = 500 := by
        rw [List.length_take]
        simp only [List.length_cons]
        omega
      rw [insertChunksGo]
      simp only [h0, hchunk]
      have hrec := ih (idx + 1) (total + 500) ((x :: rest).drop 500)
        (ops ++ [DbOp.chunkInsert idx 500 total])
        (fun j hj => by
          have := hok (j + 1) (by omega)
          simpa [Nat.add_assoc, Nat.add_comm 1 j] using this)
        (by
          have he : idx + 1 + k = idx + (k + 1) := by omega
          rw [he]
          exact hf)
        (by simp only [List.length_drop, List.length_cons]; omega)
      rw [hrec]
      have hmap : (List.range (k + 1 + 1)).map (fun j =>
            DbOp.chunkInsert (idx + j) (min 500 ((x :: rest).length - 500 * j)) (total + 500 * j))
          = DbOp.chunkInsert idx (min 500 (x :: rest).length) total ::
            (List.range (k + 1)).map (fun j =>
              DbOp.chunkInsert (idx + (j + 1)) (min 500 ((x :: rest).length - 500 * (j + 1)))
                (total + 500 * (j + 1))) := by
        rw [List.range_succ_eq_map]
        simp [List.map_map, Function.comp_def, Nat.add_comm 1]
      rw [hmap]
      have hmin : min 500 (x :: rest).length = 500 := by
        simp only [List.length_cons]
        omega
      rw [hmin]
      have htot : total + 500 + 500 * k = total + 500 * (k + 1) := by omega
      rw [htot]
      have hlist : (List.range (k + 1)).map (fun j =>
            DbOp.chunkInsert (idx + 1 + j) (min 500 ((List.drop 500 (x :: rest)).length - 500 * j))
              (total + 500 + 500 * j))
          = (List.range (k + 1)).map (fun j =>
              DbOp.chunkInsert (idx + (j + 1)) (min 500 ((x :: rest).length - 500 * (j + 1)))
                (total + 500 * (j + 1))) := by
        apply List.map_congr_left
        intro j hj
        simp only [List.mem_range] at hj
        simp only [List.length_drop, List.length_cons, DbOp.chunkInsert.injEq]
        refine ⟨by omega, by omega, by omega⟩
      rw [hlist]
      simp [List.append_assoc]

theorem insertChunksGo_succ {α : Type} (ci : Nat → DbOutcome) :
    ∀ (k idx total : Nat) (pending : List α) (ops : List DbOp),
      pending.length ≤ 500 * k →
      (∀ j, j < k → ci (idx + j) = .ok) →
      insertChunksGo ci idx pending total ops =
        .success (total + pending.length) (ops ++ chunkOpsK k idx total pending.length) := by
  intro k
  induction k with
  | zero =>
    intro idx total pending ops hlen hok
    have : pending = [] := by
      cases pending with
      | nil => rfl
      | cons x rest => simp at hlen
    subst this
    rw [insertChunksGo]
    simp [chunkOpsK]
  | succ k ih =>
    intro idx total pending ops hlen hok
    match pending with
    | [] =>
      rw [insertChunksGo]
      simp [chunkOpsK]
    | x :: rest =>
      simp only [List.length_cons] at hlen
      have h0 : ci idx = .ok := by simpa using hok 0 (Nat.succ_pos k)
      rw [insertChunksGo]
      simp only [h0, List.length_take]
      have hrec := ih (idx + 1) (total + min 500 (x :: rest).length) ((x :: rest).drop 500)
        (ops ++ [DbOp.chunkInsert idx (min 500 (x :: rest).length) total])
        (by simp only [List.length_drop, List.length_cons]; omega)
        (fun j hj => by
          have := hok (j + 1) (by omega)
          simpa [Nat.add_assoc, Nat.add_comm 1 j] using this)
      have hminc : (500 : Nat) ⊓ (x :: rest).length = min 500 (x :: rest).length := rfl
      rw [hminc, hrec]
      have hck : chunkOpsK (k + 1) idx total (x :: rest).length
          = DbOp.chunkInsert idx (min 500 (x :: rest).length) total ::
            chunkOpsK k (idx + 1) (total + min 500 (x :: rest).length)
              ((x :: rest).length - 500) := by
        rw [chunkOpsK]
        rw [if_neg (by simp)]
      rw [hck]
      have htot : total + min 500 (x :: rest).length + ((x :: rest).drop 500).length
          = total + (x :: rest).length := by
        simp only [List.length_drop, List.length_cons]
        omega
      rw [htot]
      have hdl : ((x :: rest).drop 500).length = (x :: rest).length - 500 := by
        simp [List.length_drop]
      rw [hdl]
      simp [List.append_assoc]

theorem insertChunksGo_ops_extend {α : Type} (ci : Nat → DbOutcome) :
    ∀ (n : Nat) (pending : List α), pending.length ≤ n →
      ∀ (idx total : Nat) (ops : List DbOp),
        ∃ tail, chunkResultOps (insertChunksGo ci idx pending total ops) = ops ++ tail := by
  intro n
  induction n with
  | zero =>
    intro pending hlen idx total ops
    have : pending = [] := by
      cases pending with
      | nil => rfl
      | cons x rest => simp at hlen
    subst this
    rw [insertChunksGo]
    exact ⟨[], by simp [chunkResultOps]⟩
  | succ n ih =>
    intro pending hlen idx total ops
    match pending with
    | [] =>
      rw [insertChunksGo]
      exact ⟨[], by simp [chunkResultOps]⟩
    | x :: rest =>
      simp only [List.length_cons] at hlen
      rw [insertChunksGo]
      cases hci : ci idx with
      | ok =>
        obtain ⟨tail, htail⟩ := ih ((x :: rest).drop 500)
          (by simp only [List.length_drop, List.length_cons]; omega)
          (idx + 1) (total + ((x :: rest).take 500).length)
          (ops ++ [DbOp.chunkInsert idx ((x :: rest).take 500).length total])
        refine ⟨DbOp.chunkInsert idx ((x :: rest).take 500).length total :: tail, ?_⟩
        simp only []
        rw [htail]
        simp
      | dbError m hm =>
        exact ⟨[DbOp.chunkInsert idx ((x :: rest).take 500).length total], by
          simp [chunkResultOps]⟩
      | thrown m =>
        exact ⟨[DbOp.chunkInsert idx ((x :: rest).take 500).length total], by
          simp [chunkResultOps]⟩

theorem catchResult_trace (bid msg : String) (ops : List DbOp) (total : Nat) :
    ∃ t, (catchResult bid msg ops total).trace = ops ++ t := by
  unfold catchResult
  by_cases hb : bid = ""
  · exact ⟨[], by simp [hb]⟩
  · exact ⟨[DbOp.historyUpdate bid "failed" (some msg)], by simp [hb]⟩

theorem persistPhase_trace_head {α : Type} (f : ReqFile) (ent : String)
    (tl : List α × List String) (o : Oracle α) :
    ∃ rest, (persistPhase f ent tl o).trace
      = DbOp.historyInsert o.batchId ent f.name tl.1.length "processing" :: rest := by
  have key : ∃ t, (persistPhase f ent tl o).trace
      = [DbOp.historyInsert o.batchId ent f.name tl.1.length "processing"] ++ t := by
    unfold persistPhase
    cases hh : o.historyInsert with
    | thrown m => exact catchResult_trace _ _ _ _
    | dbError m hm => exact ⟨[], by simp⟩
    | ok =>
      obtain ⟨tail, htail⟩ := insertChunksGo_ops_extend o.chunkInsert tl.1.length tl.1 le_rfl 0 0
        [DbOp.historyInsert o.batchId ent f.name tl.1.length "processing"]
      cases hloop : insertChunksGo o.chunkInsert 0 tl.1 0
          [DbOp.historyInsert o.batchId ent f.name tl.1.length "processing"] with
      | success total ops =>
        rw [hloop] at htail
        simp only [chunkResultOps] at htail
        subst htail
        cases hcu : o.completeUpdate with
        | thrown m2 =>
          obtain ⟨t2, ht2⟩ := catchResult_trace o.batchId m2
            (([DbOp.historyInsert o.batchId ent f.name tl.1.length "processing"] ++ tail)
              ++ [DbOp.historyUpdate o.batchId "completed" none]) total
          exact ⟨tail ++ [DbOp.historyUpdate o.batchId "completed" none] ++ t2, by
            simp only [hloop, hcu]
            rw [ht2]
            simp⟩
        | ok =>
          exact ⟨tail ++ [DbOp.historyUpdate o.batchId "completed" none], by
            simp [hloop, hcu]⟩
        | dbError m2 hm2 =>
          exact ⟨tail ++ [DbOp.historyUpdate o.batchId "completed" none], by
            simp [hloop, hcu]⟩
      | failed m hm total ops =>
        rw [hloop] at htail
        simp only [chunkResultOps] at htail
        subst htail
        cases hfu : o.failUpdate with
        | thrown m2 =>
          obtain ⟨t2, ht2⟩ := catchResult_trace o.batchId m2
            (([DbOp.historyInsert o.batchId ent f.name tl.1.length "processing"] ++ tail)
              ++ [DbOp.historyUpdate o.batchId "failed" (some m)]) total
          exact ⟨tail ++ [DbOp.historyUpdate o.batchId "failed" (some m)] ++ t2, by
            simp only [hloop, hfu]
            rw [ht2]
            simp⟩
        | ok =>
          exact ⟨tail ++ [DbOp.historyUpdate o.batchId "failed" (some m)], by
            simp [hloop, hfu]⟩
        | dbError m2 hm2 =>
          exact ⟨tail ++ [DbOp.historyUpdate o.batchId "failed" (some m)], by
            simp [hloop, hfu]⟩
      | exc m total ops =>
        rw [hloop] at htail
        simp only [chunkResultOps] at htail
        subst htail
        obtain ⟨t2, ht2⟩ := catchResult_trace o.batchId m
          ([DbOp.historyInsert o.batchId ent f.name tl.1.length "processing"] ++ tail) total
        exact ⟨tail ++ t2, by
          simp only [hloop]
          rw [ht2]
          simp⟩
  obtain ⟨t, ht⟩ := key
  exact ⟨t, by simpa using ht⟩

theorem persistPhase_last {α : Type} (f : ReqFile) (ent : String)
    (tl : List α × List String) (o : Oracle α)
    (hb : o.batchId ≠ "") (hne : DbOutcome.isErr o.historyInsert = false) :
    ∃ st em, (persistPhase f ent tl o).trace.getLast?
        = some (DbOp.historyUpdate o.batchId st em) ∧ (st = "failed" ∨ st = "completed") := by
  unfold persistPhase
  cases hh : o.historyInsert with
  | dbError m hm => simp [DbOutcome.isErr, hh] at hne
  | thrown m =>
    refine ⟨"failed", some m, ?_, .inl rfl⟩
    simp [catchResult, hb]
  | ok =>
    cases hloop : insertChunksGo o.chunkInsert 0 tl.1 0
        [DbOp.historyInsert o.batchId ent f.name tl.1.length "processing"] with
    | success total ops =>
      cases hcu : o.completeUpdate with
      | thrown m2 =>
        refine ⟨"failed", some m2, ?_, .inl rfl⟩
        simp [hloop, hcu, catchResult, hb, List.getLast?_concat, List.append_assoc]
      | ok =>
        refine ⟨"completed", none, ?_, .inr rfl⟩
        simp [hloop, hcu, List.getLast?_concat]
      | dbError m2 hm2 =>
        refine ⟨"completed", none, ?_, .inr rfl⟩
        simp [hloop, hcu, List.getLast?_concat]
    | failed m hm total ops =>
      cases hfu : o.failUpdate with
      | thrown m2 =>
        refine ⟨"failed", some m2, ?_, .inl rfl⟩
        simp [hloop, hfu, catchResult, hb, List.getLast?_concat, List.append_assoc]
      | ok =>
        refine ⟨"failed", some m, ?_, .inl rfl⟩
        simp [hloop, hfu, List.getLast?_concat]
      | dbError m2 hm2 =>
        refine ⟨"failed", some m, ?_, .inl rfl⟩
        simp [hloop, hfu, List.getLast?_concat]
    | exc m total ops =>
      refine ⟨"failed", some m, ?_, .inl rfl⟩
      simp [hloop, catchResult, hb, List.getLast?_concat]

theorem post_dissect {α : Type} (req : Request) (o : Oracle α)
    (h : (post req o).trace ≠ []) :
    ∃ f ent rows, req.file = some f ∧ req.entity = some ent ∧
      o.preThrow = none ∧ o.bufThrow = none ∧ o.parseResult = .ok rows ∧
      ent ≠ "" ∧ ent ∈ validEntities ∧ f.size ≤ 52428800 ∧ f.type ∈ validTypes ∧
      rows ≠ [] ∧ ¬(0 < (transformLoop rows).2.length ∧ (transformLoop rows).1.length = 0) ∧
      post req o = persistPhase f ent (transformLoop rows) o := by
  obtain ⟨rf, re⟩ := req
  cases hp : o.preThrow with
  | some m => exact absurd (by simp [post, hp, catchResult]) h
  | none =>
  cases rf with
  | none => exact absurd (by simp [post, hp, earlyResult]) h
  | some f =>
  cases re with
  | none => exact absurd (by simp [post, hp, earlyResult]) h
  | some ent =>
  by_cases h1 : ent = ""
  · exact absurd (by simp [post, hp, h1, earlyResult]) h
  by_cases h2 : ent ∈ validEntities
  swap
  · exact absurd (by simp [post, hp, h1, h2, earlyResult]) h
  by_cases h3 : 52428800 < f.size
  · exact absurd (by simp [post, hp, h1, h2, h3, earlyResult]) h
  by_cases h4 : f.type ∈ validTypes
  swap
  · exact absurd (by simp [post, hp, h1, h2, h3, h4, earlyResult]) h
  cases hb : o.bufThrow with
  | some m => exact absurd (by simp [post, hp, h1, h2, h3, h4, mainFlow, hb, catchResult]) h
  | none =>
  cases hpar : o.parseResult with
  | error m => exact absurd (by simp [post, hp, h1, h2, h3, h4, mainFlow, hb, hpar]) h
  | ok rows =>
  by_cases h5 : rows.length = 0
  · exact absurd (by simp [post, hp, h1, h2, h3, h4, mainFlow, hb, hpar, h5]) h
  by_cases h6 : 0 < (transformLoop rows).2.length ∧ (transformLoop rows).1.length = 0
  · exact absurd (by simp [post, hp, h1, h2, h3, h4, mainFlow, hb, hpar, h5, h6]) h
  have h6x : ¬(0 < (transformLoop rows).2.length ∧ (transformLoop rows).1 = []) := by
    intro hx
    exact h6 ⟨hx.1, by simp [hx.2]⟩
  exact ⟨f, ent, rows, rfl, rfl, rfl, rfl, rfl, h1, h2, by omega, h4,
    fun hrows => h5 (by simp [hrows]), h6,
    by simp [post, hp, h1, h2, h3, h4, mainFlow, hb, hpar, h5, h6x]⟩

/-- Claim C3: whenever an ingestion issues any database operation, the
first issued operation is the insert of an UploadBatch record with
status `processing` (hence it precedes every canonical-row chunk
insert), and reaching that point implies all pre-allocation validation
passed. -/
theorem c3_processing_record_before_inserts {α : Type} (req : Request) (o : Oracle α)
    (h : (post req o).trace ≠ []) :
    (∃ ent fn n rest, (post req o).trace
        = DbOp.historyInsert o.batchId ent fn n "processing" :: rest) ∧
    IngestionValidated req o := by
  obtain ⟨f, ent, rows, hf, he, hp, hb, hpar, h1, h2, h3, h4, h5, h6, heq⟩ :=
    post_dissect req o h
  constructor
  · obtain ⟨rest, hr⟩ := persistPhase_trace_head f ent (transformLoop rows) o
    exact ⟨ent, f.name, (transformLoop rows).1.length, rest, by rw [heq]; exact hr⟩
  · exact ⟨hp, hb, ⟨f, hf, h3, h4⟩, ⟨ent, he, h1, h2⟩, rows, hpar, h5, h6⟩

/-- Witness for C3. -/
theorem c3_processing_record_before_inserts_witness :
    (∃ ent fn n rest, (post reqA oracleHistErr).trace
        = DbOp.historyInsert oracleHistErr.batchId ent fn n "processing" :: rest) ∧
    IngestionValidated reqA oracleHistErr :=
  c3_processing_record_before_inserts reqA oracleHistErr (by decide)

/-- Claim C7: once the persisting phase is reached with a non-empty batch
identifier and the `processing` insert did not fail, every execution
path — including unexpected exceptions handled by the catch-all — ends
by issuing an update of the UploadBatch record to a terminal status
(`failed` or `completed`); no path leaves it in `processing`. -/
theorem c7_batch_never_stuck_processing {α : Type} (req : Request) (o : Oracle α)
    (hb0 : o.batchId ≠ "") (hne : DbOutcome.isErr o.historyInsert = false)
    (h : (post req o).trace ≠ []) :
    ∃ st em, (post req o).trace.getLast? = some (DbOp.historyUpdate o.batchId st em) ∧
      (st = "failed" ∨ st = "completed") := by
  obtain ⟨f, ent, rows, hf, he, hp, hb, hpar, h1, h2, h3, h4, h5, h6, heq⟩ :=
    post_dissect req o h
  rw [heq]
  exact persistPhase_last f ent (transformLoop rows) o hb0 hne

/-- Witness for C7. -/
theorem c7_batch_never_stuck_processing_witness :
    ∃ st em, (post reqA oracleHistThrow).trace.getLast?
        = some (DbOp.historyUpdate oracleHistThrow.batchId st em) ∧
      (st = "failed" ∨ st = "completed") :=
  c7_batch_never_stuck_processing reqA oracleHistThrow (by decide) (by decide) (by decide)

/-- Claim C9: a request whose entity field is absent, empty, or outside
the fixed enumeration is answered with status 400 immediately: no
database operation is issued, the inserted-rows counter stays 0, no
batch identifier is allocated, and the response carries none. -/
theorem c9_invalid_entity_rejected {α : Type} (req : Request) (o : Oracle α)
    (hp : o.preThrow = none) (he : entityInvalid req) :
    (post req o).resp.status = 400 ∧ (post req o).trace = [] ∧
    (post req o).totalInserted = 0 ∧ (post req o).batchIdVar = "" ∧
    (post req o).resp.batchId = none := by
  obtain ⟨rf, re⟩ := req
  cases rf with
  | none => simp [post, hp, earlyResult, err400]
  | some f =>
    cases re with
    | none => simp [post, hp, earlyResult, err400]
    | some e =>
      simp only [entityInvalid] at he
      by_cases h1 : e = ""
      · simp [post, hp, h1, earlyResult, err400]
      · have h2 : e ∉ validEntities := by
          rcases he with he | he
          · exact absurd he h1
          · exact he
        simp [post, hp, h1, h2, earlyResult, err400]

/-- Witness for C9. -/
theorem c9_invalid_entity_rejected_witness :
    (post reqBadEntity oracleOkOne).resp.status = 400 ∧
    (post reqBadEntity oracleOkOne).trace = [] ∧
    (post reqBadEntity oracleOkOne).totalInserted = 0 ∧
    (post reqBadEntity oracleOkOne).batchIdVar = "" ∧
    (post reqBadEntity oracleOkOne).resp.batchId = none :=
  c9_invalid_entity_rejected reqBadEntity oracleOkOne (by decide)
    (by simp [entityInvalid, reqBadEntity, validEntities])

theorem errCount_replicate_ok {α : Type} (m : Nat) (a : α) :
    errCount (List.replicate m (Except.ok a)) = 0 := by
  induction m with
  | zero => rfl
  | succ m ih => simpa [List.replicate_succ, errCount] using ih

theorem okRows_replicate_ok {α : Type} (m : Nat) (a : α) :
    okRows (List.replicate m (Except.ok a)) = List.replicate m a := by
  induction m with
  | zero => rfl
  | succ m ih => simp [List.replicate_succ, okRows, ih]

theorem fmtErrs_replicate_ok {α : Type} (m : Nat) (a : α) :
    ∀ n, fmtErrs n (List.replicate m (Except.ok a)) = [] := by
  induction m with
  | zero => intro n; rfl
  | succ m ih => intro n; simpa [List.replicate_succ, fmtErrs] using ih (n + 1)

theorem transformLoop_replicate_ok {α : Type} (m : Nat) (a : α) :
    transformLoop (List.replicate m (Except.ok a)) = (List.replicate m a, []) := by
  unfold transformLoop
  rw [transformLoopGo_under_cap _ 2 [] [] (by simp [errCount_replicate_ok])]
  simp [okRows_replicate_ok, fmtErrs_replicate_ok]

theorem post_to_persist {α : Type} (o : Oracle α) (f : ReqFile) (ent : String)
    (rows : List (Except String α))
    (hp : o.preThrow = none) (h1 : ent ≠ "") (h2 : ent ∈ validEntities)
    (h3 : ¬ 52428800 < f.size) (h4 : f.type ∈ validTypes)
    (hb : o.bufThrow = none) (hpar : o.parseResult = .ok rows)
    (h5 : rows.length ≠ 0)
    (h6 : ¬(0 < (transformLoop rows).2.length ∧ (transformLoop rows).1 = [])) :
    post ⟨some f, some ent⟩ o = persistPhase f ent (transformLoop rows) o := by
  simp [post, hp, h1, h2, h3, h4, mainFlow, hb, hpar, h5, h6]

/-- Claim C2: when the insert of chunk `k` fails (all earlier chunks
succeeding), the orchestrator updates the UploadBatch record to `failed`
with the underlying error message, issues no insert for any chunk after
`k`, answers 500 carrying that message, and the rows-inserted counter is
exactly the 500·k rows of the chunks before `k`. -/
theorem c2_chunk_failure_aborts {α : Type} (o : Oracle α) (f : ReqFile) (ent : String)
    (rows : List (Except String α)) (msg : String) (hm : Option String) (k : Nat)
    (hp : o.preThrow = none)
    (h1 : ent ≠ "") (h2 : ent ∈ validEntities) (h3 : ¬ 52428800 < f.size)
    (h4 : f.type ∈ validTypes) (hb : o.bufThrow = none)
    (hpar : o.parseResult = .ok rows)
    (h7 : o.historyInsert = .ok)
    (h8 : ∀ j, j < k → o.chunkInsert j = .ok)
    (h9 : o.chunkInsert k = .dbError msg hm)
    (h10 : 500 * k < (transformLoop rows).1.length)
    (h11 : DbOutcome.isThrow o.failUpdate = false) :
    (post ⟨some f, some ent⟩ o).resp.status = 500 ∧
    (post ⟨some f, some ent⟩ o).resp.error = some "Database insert failed" ∧
    (post ⟨some f, some ent⟩ o).resp.details = [msg] ∧
    (post ⟨some f, some ent⟩ o).totalInserted = 500 * k ∧
    (post ⟨some f, some ent⟩ o).trace =
      DbOp.historyInsert o.batchId ent f.name (transformLoop rows).1.length "processing" ::
        ((List.range (k + 1)).map (fun j =>
            DbOp.chunkInsert j (min 500 ((transformLoop rows).1.length - 500 * j)) (500 * j))
          ++ [DbOp.historyUpdate o.batchId "failed" (some msg)]) ∧
    ∀ j s t, DbOp.chunkInsert j s t ∈ (post ⟨some f, some ent⟩ o).trace → j ≤ k := by
  have h5 : rows.length ≠ 0 := by
    intro h0
    have hx : rows = [] := List.length_eq_zero.mp h0
    subst hx
    simp [transformLoop, transformLoopGo] at h10
  have h6 : ¬(0 < (transformLoop rows).2.length ∧ (transformLoop rows).1 = []) := by
    intro hx
    rw [hx.2] at h10
    simp at h10
  have hpp := post_to_persist o f ent rows hp h1 h2 h3 h4 hb hpar h5 h6
  have hloop := insertChunksGo_fail o.chunkInsert msg hm k 0 0 (transformLoop rows).1
    [DbOp.historyInsert o.batchId ent f.name (transformLoop rows).1.length "processing"]
    (fun j hj => by simpa using h8 j hj) (by simpa using h9) h10
  have hpost : post ⟨some f, some ent⟩ o =
      { resp := { status := 500, success := false, error := some "Database insert failed",
                  details := [msg], hintMsg := hm },
        trace := DbOp.historyInsert o.batchId ent f.name (transformLoop rows).1.length
              "processing" ::
            ((List.range (k + 1)).map (fun j =>
                DbOp.chunkInsert j (min 500 ((transformLoop rows).1.length - 500 * j)) (500 * j))
              ++ [DbOp.historyUpdate o.batchId "failed" (some msg)]),
        totalInserted := 500 * k,
        batchIdVar := o.batchId } := by
    rw [hpp]
    unfold persistPhase
    simp only [h7, hloop]
    cases hfu : o.failUpdate with
    | thrown m2 => simp [DbOutcome.isThrow, hfu] at h11
    | ok =>
      simp only [hfu]
      simp [List.append_assoc, Nat.zero_add]
    | dbError m2 hm2 =>
      simp only [hfu]
      simp [List.append_assoc, Nat.zero_add]
  refine ⟨by rw [hpost], by rw [hpost], by rw [hpost], by rw [hpost], by rw [hpost], ?_⟩
  intro j s t hmem
  rw [hpost] at hmem
  simp only [List.mem_cons, List.mem_append, List.mem_map, List.mem_range] at hmem
  rcases hmem with hmem | ⟨a, ha, hmem⟩ | hmem
  · exact absurd hmem (by simp)
  · have : a = j := by
      have := hmem
      simp only [DbOp.chunkInsert.injEq] at this
      exact this.1
    omega
  · exact absurd hmem (by simp)

/-- Witness for C2: a 600-row sheet whose second chunk fails. -/
theorem c2_chunk_failure_aborts_witness :
    (post ⟨some fileA, some "USA"⟩ oracle600).resp.status = 500 ∧
    (post ⟨some fileA, some "USA"⟩ oracle600).totalInserted = 500 * 1 := by
  have h := c2_chunk_failure_aborts oracle600 fileA "USA"
    (List.replicate 600 (Except.ok ())) "insert exploded" none 1
    rfl (by decide) (by decide) (by decide) (by decide) rfl rfl rfl
    (by decide) (by decide)
    (by rw [transformLoop_replicate_ok]
        show 500 * 1 < (List.replicate 600 (() : Unit)).length
        rw [List.length_replicate]
        omega)
    (by decide)
  exact ⟨h.1, h.2.2.2.1⟩

theorem persistPhase_success {α : Type} (f : ReqFile) (ent : String)
    (tl : List α × List String) (o : Oracle α) (total : Nat) (ops : List DbOp)
    (hh : o.historyInsert = DbOutcome.ok)
    (hcu : DbOutcome.isThrow o.completeUpdate = false)
    (hloop : insertChunksGo o.chunkInsert 0 tl.1 0
        [DbOp.historyInsert o.batchId ent f.name tl.1.length "processing"] =
      ChunkResult.success total ops) :
    persistPhase f ent tl o =
      { resp := { status := 200, success := true, batchId := some o.batchId,
                  rowsInserted := some total, rowsSkipped := some tl.2.length,
                  entity := some ent, fileName := some f.name },
        trace := ops ++ [DbOp.historyUpdate o.batchId "completed" none],
        totalInserted := total,
        batchIdVar := o.batchId } := by
  unfold persistPhase
  simp only [hh, hloop]
  cases hcu2 : o.completeUpdate with
  | thrown m => simp [DbOutcome.isThrow, hcu2] at hcu
  | ok => simp [hcu2]
  | dbError m hm2 => simp [hcu2]

/-- Claim C8: a transformed set of 1,200 rows is persisted in exactly 3
chunk inserts of sizes 500, 500 and 200, in that order, each issued with
the monotonically increasing counter value 0, 500, 1000; the response
reports 1,200 rows inserted and the loop finishes before the `completed`
update. -/
theorem c8_chunking_500_500_200 :
    (post ⟨some fileA, some "USA"⟩ oracle1200).trace =
      [DbOp.historyInsert "batch-1200" "USA" "data.xlsx" 1200 "processing",
       DbOp.chunkInsert 0 500 0, DbOp.chunkInsert 1 500 500, DbOp.chunkInsert 2 200 1000,
       DbOp.historyUpdate "batch-1200" "completed" none] ∧
    (post ⟨some fileA, some "USA"⟩ oracle1200).resp.rowsInserted = some 1200 ∧
    (post ⟨some fileA, some "USA"⟩ oracle1200).resp.rowsSkipped = some 0 ∧
    (post ⟨some fileA, some "USA"⟩ oracle1200).totalInserted = 1200 := by
  have htl := transformLoop_replicate_ok 1200 (() : Unit)
  have hpp := post_to_persist oracle1200 fileA "USA" (List.replicate 1200 (Except.ok ()))
    rfl (by decide) (by decide) (by decide) (by decide) rfl rfl
    (by rw [List.length_replicate]; omega)
    (by
      rw [htl]
      intro hx
      have h0 := hx.1
      simp at h0)
  rw [htl] at hpp
  have hloop := insertChunksGo_succ oracle1200.chunkInsert 3 0 0
    (List.replicate 1200 (() : Unit))
    [DbOp.historyInsert oracle1200.batchId "USA" fileA.name
      (List.replicate 1200 (() : Unit)).length "processing"]
    (by rw [List.length_replicate]; omega) (fun j hj => rfl)
  have hpost := persistPhase_success fileA "USA" (List.replicate 1200 (() : Unit), []) oracle1200
    (0 + (List.replicate 1200 (() : Unit)).length)
    ([DbOp.historyInsert oracle1200.batchId "USA" fileA.name
        (List.replicate 1200 (() : Unit)).length "processing"]
      ++ chunkOpsK 3 0 0 (List.replicate 1200 (() : Unit)).length)
    rfl rfl hloop
  have hck : chunkOpsK 3 0 0 (List.replicate 1200 (() : Unit)).length =
      [DbOp.chunkInsert 0 500 0, DbOp.chunkInsert 1 500 500, DbOp.chunkInsert 2 200 1000] := by
    rw [List.length_replicate]
    decide
  rw [hck] at hpost
  rw [hpp, hpost]
  simp only [List.length_replicate, Nat.zero_add, List.singleton_append, List.cons_append,
    List.nil_append, List.length_nil]
  simp
  exact ⟨⟨rfl, rfl⟩, rfl⟩
